import Mathlib

/-
Verification of the AuraDent consultation bot core (bot.py):
the message parser `parse_consultation_message` and the Excel-backed
record store `ConsultationManager`.

Modelling conventions:
- Python strings are Lean `String`s; `str.strip()` is `String.trim`,
  `str.lower()` is `String.toLower`, `str.split (newline)` is `String.splitOn`,
  `str.replace` is `String.replace`.
- `json.loads` is Python standard-library code, not code of this repository,
  so the parser is parameterized by a decode oracle
  `jloads : String → Option JVal`; `none` models a raised decode error
  (caught by the surrounding try/except, yielding `None`).  When the input
  text starts (after stripping) with a brace, a successful `json.loads` can
  only return a dict, so a non-object oracle result is unreachable and is
  mapped to `none`.
- A Python dict is an association list `List (String × JVal)` in insertion
  order; assignment replaces an existing key in place, else appends.
- The workbook file is a `FileState`: `absent` (path does not exist),
  `corrupt` (exists but `load_workbook` raises), or `present rows` where
  `rows` is the list of sheet rows.  openpyxl's `sheet.max_row` is at least 1
  even for an empty sheet, hence `max_row rows = max rows.length 1`.
  Cell fonts and column widths are cosmetic and not modelled.
-/

/-- A JSON value, as returned by the JSON decode oracle. In the line-oriented
path every stored value is a `JVal.str`. -/
inductive JVal where
  | str (s : String)
  | num (n : Int)
  | bool (b : Bool)
  | null
  | arr (elems : List JVal)
  | obj (fields : List (String × JVal))

/-- Python whitespace for `str.strip()` (ASCII fragment): space, tab, newline,
vertical tab, form feed, carriage return. -/
def is_py_space (c : Char) : Bool :=
  c == ' ' || c == '\t' || c == '\n' || c == '\x0b' || c == '\x0c' || c == '\r'

/-- Python `s.strip()` (bot.py uses it on the text, lines, keys and values):
drop leading and trailing whitespace. -/
def pyStrip (s : String) : String :=
  String.mk (((s.data.dropWhile is_py_space).reverse.dropWhile
    is_py_space).reverse)

/-- Python `s.lower()`. -/
def pyLower (s : String) : String := String.mk (s.data.map Char.toLower)

/-- Splits a character list at every occurrence of the separator character,
like Python `str.split(sep)` for a one-character separator: the result always
has one more part than there are separators. -/
def split_char (sep : Char) : List Char → List (List Char)
  | [] => [[]]
  | c :: cs =>
    match split_char sep cs with
    | [] => [[c]]
    | h :: t => if c == sep then [] :: h :: t else (c :: h) :: t

/-- Python `text.split(newline)` (bot.py line 162). -/
def split_lines (s : String) : List String :=
  (split_char '\n' s.data).map String.mk

/-- Python `key.replace(space, underscore)` (bot.py line 194): for
one-character arguments, `str.replace` is a character-wise map. -/
def replace_space_underscore (s : String) : String :=
  String.mk (s.data.map (fun c => if c == ' ' then '_' else c))

/-- Python `text.startswith(brace)` (bot.py line 158). -/
def starts_with_brace (s : String) : Bool :=
  match s.data with
  | [] => false
  | c :: _ => c == '\x7b'

/-- Membership test of a key in a Python dict (`field in consultation_data`,
bot.py line 199). -/
def dict_contains (d : List (String × JVal)) (k : String) : Bool :=
  d.any (fun p => p.1 = k)

/-- Python dict assignment `d[k] = v` (bot.py line 195): replaces the value of
an existing key in place, otherwise appends the pair. -/
def dictInsert (d : List (String × JVal)) (k : String) (v : JVal) :
    List (String × JVal) :=
  if d.any (fun p => p.1 = k) then
    d.map (fun p => if p.1 = k then (k, v) else p)
  else d ++ [(k, v)]

/-- Python dict lookup with default, `d.get(k, dflt)`. -/
def dict_get (d : List (String × JVal)) (k : String) (dflt : JVal) : JVal :=
  match d with
  | [] => dflt
  | p :: rest => if p.1 = k then p.2 else dict_get rest k dflt

/-- Splits a character list at the first colon, dropping the colon:
the behaviour of Python `line.split(char, 1)` when the separator occurs. -/
def break_colon : List Char → List Char × List Char
  | [] => ([], [])
  | c :: cs =>
    if c = ':' then ([], cs)
    else
      let p := break_colon cs
      (c :: p.1, p.2)

/-- Python `line.split(separator, 1)` for a line known to contain a colon
(bot.py line 175). -/
def split_first_colon (s : String) : String × String :=
  let p := break_colon s.data
  (String.mk p.1, String.mk p.2)

/-- Python `char in line` for the colon character (bot.py line 174). -/
def contains_colon (s : String) : Bool := s.data.contains ':'

/-- The fixed synonym table `key_mapping` of bot.py lines 184-192. -/
def key_mapping : List (String × String) :=
  [("name", "name"),
   ("email", "email"),
   ("phone", "phone"),
   ("message", "message"),
   ("date", "date"),
   ("consultation type", "consultation_type"),
   ("age", "age")]

/-- Table lookup with default used for key normalization,
`key_mapping.get(key, key.replace(space, underscore))` (bot.py line 194). -/
def mapped_key (key : String) : String :=
  match key_mapping.find? (fun p => p.1 = key) with
  | some p => p.2
  | none => replace_space_underscore key

/-- The body of the parsing loop of bot.py lines 172-195 for one line:
strip the line, and if it contains a colon, split on the first colon,
normalize the key (strip, lowercase, synonym table), strip the value, and
store the pair unless the value is empty. -/
def process_line (d : List (String × JVal)) (l : String) :
    List (String × JVal) :=
  let line := pyStrip l
  if contains_colon line then
    let kv := split_first_colon line
    let key := pyLower (pyStrip kv.1)
    let value := pyStrip kv.2
    if value = "" then d
    else dictInsert d (mapped_key key) (JVal.str value)
  else d

/-- The parsing loop of bot.py lines 172-195 over the remaining lines,
starting from the accumulated dict `d`. -/
def parse_pairs (lines : List String) (d : List (String × JVal)) :
    List (String × JVal) :=
  lines.foldl process_line d

/-- Index of the first line to parse: 1 when the first line is one of the two
recognized headings (case-insensitively, after stripping), else 0
(bot.py lines 165-167). -/
def start_index (lines : List String) : Nat :=
  match lines with
  | [] => 0
  | l :: _ =>
    if pyLower (pyStrip l) = "new consultation request"
        ∨ pyLower (pyStrip l) = "consultation request" then 1
    else 0

/-- The dict accumulated by the line-oriented path of
`parse_consultation_message` (bot.py lines 162-195): strip the whole text,
split into lines, optionally skip the heading line, run the parsing loop. -/
def line_dict (text : String) : List (String × JVal) :=
  let lines := split_lines (pyStrip text)
  parse_pairs (lines.drop (start_index lines)) []

/-- `required_fields` of bot.py line 198. -/
def required_fields : List String := ["name", "email", "phone"]

/-- `parse_consultation_message` of bot.py lines 145-207, parameterized by the
`json.loads` oracle.  If the stripped text starts with a brace, the JSON
branch returns the decoded object's fields (a raised decode error, modelled
by `none`, is caught and yields `None`).  Otherwise the line-oriented path
accumulates pairs, validates the required fields, and returns the dict when
it is nonempty. -/
def parse_consultation_message (jloads : String → Option JVal)
    (text : String) : Option (List (String × JVal)) :=
  if starts_with_brace (pyStrip text) then
    match jloads text with
    | some (JVal.obj fields) => some fields
    | _ => none
  else
    let d := line_dict text
    if required_fields.all (fun f => dict_contains d f) then
      if d.isEmpty then none else some d
    else none

example :
    line_dict "New Consultation Request\nName: A\nEmail: b@c.com\nPhone: 123"
      = [("name", JVal.str "A"), ("email", JVal.str "b@c.com"),
         ("phone", JVal.str "123")] := by
  rfl

example :
    parse_consultation_message (fun _ => none)
      "Name: A\nEmail: b@c.com\nPhone: 123"
      = some [("name", JVal.str "A"), ("email", JVal.str "b@c.com"),
              ("phone", JVal.str "123")] := by
  rfl

example :
    parse_consultation_message (fun _ => none) "Name: A\nPhone: 123"
      = none := by
  rfl

example :
    line_dict "Message: see you at 10:30"
      = [("message", JVal.str "see you at 10:30")] := by
  rfl

example :
    line_dict "Insurance: Yes\nConsultation Type: Implant"
      = [("insurance", JVal.str "Yes"),
         ("consultation_type", JVal.str "Implant")] := by
  rfl

/-- The state of the workbook file at the configured path:
absent, unreadable (a `load_workbook` call raises), or present with its
sheet's rows. -/
inductive FileState where
  | absent
  | corrupt
  | present (rows : List (List JVal))

/-- The fixed header row written by `_ensure_excel_file_exists`
(bot.py lines 63-66).  Bold font, centered alignment and column widths are
cosmetic and not part of the behavioural model. -/
def header_row : List JVal :=
  [JVal.str "Timestamp", JVal.str "Name", JVal.str "Phone", JVal.str "Email",
   JVal.str "Age", JVal.str "Consultation Type", JVal.str "Message",
   JVal.str "Chat ID"]

/-- `ConsultationManager._ensure_excel_file_exists` (bot.py lines 55-88):
if the path does not exist, create a workbook whose sheet holds exactly the
header row; any existing file (readable or not) is left untouched. -/
def ensure_excel_file_exists : FileState → FileState
  | FileState.absent => FileState.present [header_row]
  | st => st

/-- openpyxl `sheet.max_row`: the index of the last populated row, reported
as 1 even for a sheet with no rows. -/
def max_row (rows : List (List JVal)) : Nat := max rows.length 1

/-- Writing a whole row of cell values at the 1-based index `idx`
(bot.py lines 115-116 write cells of columns 1-8 of row `next_row`):
rows before `idx` are kept, the sheet is padded with empty rows if `idx` is
beyond its end. -/
def set_row (rows : List (List JVal)) (idx : Nat) (row : List JVal) :
    List (List JVal) :=
  (rows ++ List.replicate (idx - rows.length) []).set (idx - 1) row

/-- The eight cell values of one appended row (bot.py lines 103-112):
the store-stamped timestamp, then `consultation_data.get(key, empty)` for the
seven record keys, in column order. -/
def row_data (d : List (String × JVal)) (timestamp : String) : List JVal :=
  [JVal.str timestamp,
   dict_get d "name" (JVal.str ""),
   dict_get d "phone" (JVal.str ""),
   dict_get d "email" (JVal.str ""),
   dict_get d "age" (JVal.str ""),
   dict_get d "consultation_type" (JVal.str ""),
   dict_get d "message" (JVal.str ""),
   dict_get d "chat_id" (JVal.str "")]

/-- `ConsultationManager.add_consultation` (bot.py lines 90-124): load the
workbook, compute `next_row = sheet.max_row + 1`, write the mapped row there,
save, and return `True`; any exception (the load raising because the file is
absent or unreadable) is caught and `False` is returned with the file
untouched.  The current wall-clock timestamp is a parameter. -/
def add_consultation (st : FileState) (d : List (String × JVal))
    (timestamp : String) : FileState × Bool :=
  match st with
  | FileState.present rows =>
    (FileState.present (set_row rows (max_row rows + 1) (row_data d timestamp)),
     true)
  | st => (st, false)

/-- `ConsultationManager.get_consultation_count` (bot.py lines 130-138):
reopen the workbook and return `sheet.max_row - 1`; any exception while
reading yields 0. -/
def get_consultation_count : FileState → Nat
  | FileState.present rows => max_row rows - 1
  | _ => 0

/-- N successive `add_consultation` calls, each with its record and
timestamp, threading the file state. -/
def iterate_add : FileState → List (List (String × JVal) × String) → FileState
  | st, [] => st
  | st, e :: es => iterate_add (add_consultation st e.1 e.2).1 es

example :
    get_consultation_count
      (iterate_add (ensure_excel_file_exists FileState.absent)
        [([("name", JVal.str "A")], "t1"), ([], "t2")]) = 2 := by
  rfl

example :
    add_consultation (FileState.present [header_row])
      [("name", JVal.str "A")] "t1"
      = (FileState.present [header_row,
          [JVal.str "t1", JVal.str "A", JVal.str "", JVal.str "", JVal.str "",
           JVal.str "", JVal.str "", JVal.str ""]], true) := by
  rfl

/-- Modelled from the spec: the first protocol generation of
`parse_consultation_message`.  Only the second generation is in src/
(bot.py lines 197-201 add the required-fields validation on top of it);
per the spec the first generation "requires only that at least one pair was
parsed", i.e. its line-oriented path ends with the nonemptiness check of
bot.py line 203 alone, with no required-fields validation. -/
def parse_consultation_message_gen1 (jloads : String → Option JVal)
    (text : String) : Option (List (String × JVal)) :=
  if starts_with_brace (pyStrip text) then
    match jloads text with
    | some (JVal.obj fields) => some fields
    | _ => none
  else
    let d := line_dict text
    if d.isEmpty then none else some d

/-- The shape of every pair the parsing loop keeps from a line: the stripped
line contains a colon; it splits at the first colon into a key part and a
value part; the stripped value is nonempty; the stored key is the key part
stripped, lowercased and mapped through the synonym table; the stored value
is the stripped value part. -/
def kept_pair (l : String) (p : String × JVal) : Prop :=
  contains_colon (pyStrip l) = true ∧
  pyStrip (split_first_colon (pyStrip l)).2 ≠ "" ∧
  p.1 = mapped_key (pyLower (pyStrip (split_first_colon (pyStrip l)).1)) ∧
  p.2 = JVal.str (pyStrip (split_first_colon (pyStrip l)).2)

/-- A dict that contains a key is nonempty. -/
theorem dict_contains_ne_nil (d : List (String × JVal)) (k : String)
    (h : dict_contains d k = true) : d ≠ [] := by
  intro hnil
  rw [hnil] at h
  simp [dict_contains] at h

/-- Overwriting the slot just past a list's end is appending. -/
theorem set_append_singleton {α : Type} (l : List α) (x y : α) :
    (l ++ [x]).set l.length y = l ++ [y] := by
  induction l with
  | nil => rfl
  | cons a t ih => simp [List.set, ih]

/-- For a nonempty sheet, writing at row `max_row + 1` appends one row. -/
theorem set_row_next (rows : List (List JVal)) (row : List JVal)
    (h : rows ≠ []) :
    set_row rows (max_row rows + 1) row = rows ++ [row] := by
  have hlen : max_row rows = rows.length :=
    Nat.max_eq_left (List.length_pos.mpr h)
  unfold set_row
  rw [hlen]
  have : rows.length + 1 - rows.length = 1 := by omega
  rw [this]
  simp [set_append_singleton rows [] row]

/-- `add_consultation` on a readable nonempty sheet: success, and the new
sheet is the old one with one extra row. -/
theorem add_present_eq (rows : List (List JVal)) (d : List (String × JVal))
    (ts : String) (h : rows ≠ []) :
    add_consultation (FileState.present rows) d ts
      = (FileState.present (rows ++ [row_data d ts]), true) := by
  simp [add_consultation, set_row_next rows (row_data d ts) h]

/-- Iterating `add_consultation` from a readable nonempty sheet appends the
mapped row of each entry, in order. -/
theorem iterate_add_present
    (entries : List (List (String × JVal) × String)) :
    ∀ rows, rows ≠ [] →
      iterate_add (FileState.present rows) entries
        = FileState.present
            (rows ++ entries.map (fun e => row_data e.1 e.2)) := by
  induction entries with
  | nil => intro rows _; simp [iterate_add]
  | cons e es ih =>
    intro rows h
    have step := add_present_eq rows e.1 e.2 h
    calc iterate_add (FileState.present rows) (e :: es)
        = iterate_add (add_consultation (FileState.present rows) e.1 e.2).1
            es := rfl
      _ = iterate_add
            (FileState.present (rows ++ [row_data e.1 e.2])) es := by
            rw [step]
      _ = FileState.present ((rows ++ [row_data e.1 e.2])
            ++ es.map (fun e => row_data e.1 e.2)) := by
            exact ih (rows ++ [row_data e.1 e.2]) (by simp)
      _ = FileState.present
            (rows ++ (e :: es).map (fun e => row_data e.1 e.2)) := by
            simp

/-- Claim C3: starting from an initialized store (header row only), calling
`add_consultation` N times (each call succeeding) and then
`get_consultation_count` returns N: the count is the last row index minus 1,
excluding the header. -/
theorem append_n_then_count
    (entries : List (List (String × JVal) × String)) :
    get_consultation_count
      (iterate_add (ensure_excel_file_exists FileState.absent) entries)
      = entries.length := by
  have h0 : ensure_excel_file_exists FileState.absent
      = FileState.present [header_row] := rfl
  rw [h0, iterate_add_present entries [header_row] (by simp)]
  simp [get_consultation_count, max_row]

/-- Claim C4: `_ensure_excel_file_exists` is idempotent: on an absent file it
creates exactly one header row (Timestamp, Name, Phone, Email, Age,
Consultation Type, Message, Chat ID) and zero data rows, and any further call
leaves every file state unchanged. -/
theorem ensure_initialized_idempotent :
    ensure_excel_file_exists FileState.absent
      = FileState.present [header_row] ∧
    header_row
      = [JVal.str "Timestamp", JVal.str "Name", JVal.str "Phone",
         JVal.str "Email", JVal.str "Age", JVal.str "Consultation Type",
         JVal.str "Message", JVal.str "Chat ID"] ∧
    ∀ st : FileState,
      ensure_excel_file_exists (ensure_excel_file_exists st)
        = ensure_excel_file_exists st := by
  refine ⟨rfl, rfl, ?_⟩
  intro st
  cases st <;> rfl

/-- Claim C5: store operations return failure values instead of propagating
exceptions: for every record and timestamp, `add_consultation` on an absent
or unreadable file returns `false` (with the file untouched), and
`get_consultation_count` returns 0 on any read failure. -/
theorem store_failures_return_values (d : List (String × JVal))
    (ts : String) :
    add_consultation FileState.absent d ts = (FileState.absent, false) ∧
    add_consultation FileState.corrupt d ts = (FileState.corrupt, false) ∧
    get_consultation_count FileState.absent = 0 ∧
    get_consultation_count FileState.corrupt = 0 :=
  ⟨rfl, rfl, rfl, rfl⟩

/-- Claim C6: a successful `add_consultation` on a sheet with at least one
row writes exactly one new row at one past the last populated row, keeping
the header row and every previously existing data row unchanged; and
`_ensure_excel_file_exists` never modifies an existing file. -/
theorem add_appends_exactly_one_row (rows : List (List JVal))
    (d : List (String × JVal)) (ts : String) (h : rows ≠ []) :
    add_consultation (FileState.present rows) d ts
      = (FileState.present (rows ++ [row_data d ts]), true) ∧
    ensure_excel_file_exists (FileState.present rows)
      = FileState.present rows :=
  ⟨add_present_eq rows d ts h, rfl⟩

/-- Witness for C6 at a concrete sheet and record. -/
theorem add_appends_exactly_one_row_witness :
    ([header_row] : List (List JVal)) ≠ [] ∧
    add_consultation (FileState.present [header_row])
      [("name", JVal.str "A"), ("insurance", JVal.str "Yes")] "t1"
      = (FileState.present [header_row,
          row_data [("name", JVal.str "A"), ("insurance", JVal.str "Yes")]
            "t1"], true) ∧
    ensure_excel_file_exists (FileState.present [header_row])
      = FileState.present [header_row] :=
  ⟨by simp,
   (add_appends_exactly_one_row [header_row] _ "t1" (by simp)).1,
   (add_appends_exactly_one_row [header_row]
     [("name", JVal.str "A"), ("insurance", JVal.str "Yes")] "t1"
     (by simp)).2⟩

/-- Replacing the value of key `k` in place does not change lookups of other
keys. -/
theorem dict_get_map_ne (d : List (String × JVal)) (k f : String) (v : JVal)
    (dflt : JVal) (hkf : k ≠ f) :
    dict_get (d.map (fun p => if p.1 = k then (k, v) else p)) f dflt
      = dict_get d f dflt := by
  induction d with
  | nil => rfl
  | cons p rest ih =>
    by_cases h : p.1 = k
    · simp [dict_get, h, hkf, Ne.symm hkf, ih]
    · simp only [List.map_cons, if_neg h]
      by_cases h2 : p.1 = f <;> simp [dict_get, h2, ih]

/-- Appending a pair with key `k` does not change lookups of other keys. -/
theorem dict_get_append_ne (d : List (String × JVal)) (k f : String)
    (v : JVal) (dflt : JVal) (hkf : k ≠ f) :
    dict_get (d ++ [(k, v)]) f dflt = dict_get d f dflt := by
  induction d with
  | nil => simp [dict_get, hkf]
  | cons p rest ih =>
    by_cases h : p.1 = f <;> simp [dict_get, h, ih]

/-- A dict assignment under key `k` does not change lookups of other keys. -/
theorem dict_get_dictInsert_ne (d : List (String × JVal)) (k f : String)
    (v : JVal) (dflt : JVal) (hkf : k ≠ f) :
    dict_get (dictInsert d k v) f dflt = dict_get d f dflt := by
  unfold dictInsert
  by_cases h : d.any (fun p => p.1 = k)
  · rw [if_pos h]
    exact dict_get_map_ne d k f v dflt hkf
  · rw [if_neg h]
    exact dict_get_append_ne d k f v dflt hkf

/-- Claim C10: `add_consultation` writes exactly the eight fixed columns
(timestamp, then the seven record keys name, phone, email, age,
consultation_type, message, chat_id); storing any other key into the record,
such as an unrecognized key retained by the parser, changes neither the
written row nor the resulting file. -/
theorem add_writes_only_fixed_columns (st : FileState)
    (d : List (String × JVal)) (k : String) (v : JVal) (ts : String)
    (h : k ∉ ["name", "phone", "email", "age", "consultation_type",
              "message", "chat_id"]) :
    (row_data d ts).length = 8 ∧
    row_data (dictInsert d k v) ts = row_data d ts ∧
    add_consultation st (dictInsert d k v) ts = add_consultation st d ts := by
  simp only [List.mem_cons, List.not_mem_nil, or_false, not_or] at h
  obtain ⟨h1, h2, h3, h4, h5, h6, h7⟩ := h
  have hrow : row_data (dictInsert d k v) ts = row_data d ts := by
    simp [row_data, dict_get_dictInsert_ne, h1, h2, h3, h4, h5, h6, h7]
  refine ⟨rfl, hrow, ?_⟩
  cases st <;> simp [add_consultation, hrow]

/-- Witness for C10 at a concrete record with the extra key `insurance`. -/
theorem add_writes_only_fixed_columns_witness :
    ("insurance" ∉ ["name", "phone", "email", "age", "consultation_type",
                    "message", "chat_id"]) ∧
    (row_data [("name", JVal.str "A")] "t1").length = 8 ∧
    row_data (dictInsert [("name", JVal.str "A")] "insurance"
        (JVal.str "Yes")) "t1"
      = row_data [("name", JVal.str "A")] "t1" ∧
    add_consultation (FileState.present [header_row])
        (dictInsert [("name", JVal.str "A")] "insurance" (JVal.str "Yes"))
        "t1"
      = add_consultation (FileState.present [header_row])
          [("name", JVal.str "A")] "t1" :=
  ⟨by decide,
   add_writes_only_fixed_columns (FileState.present [header_row])
     [("name", JVal.str "A")] "insurance" (JVal.str "Yes") "t1" (by decide)⟩

/-- Claim C1: on the line-oriented (non-JSON) path, parsing fails exactly
when the accumulated pairs miss at least one of name, email, phone. -/
theorem parse_requires_name_email_phone (jl : String → Option JVal)
    (text : String) (h : starts_with_brace (pyStrip text) = false) :
    parse_consultation_message jl text = none ↔
      ¬ (dict_contains (line_dict text) "name" = true ∧
         dict_contains (line_dict text) "email" = true ∧
         dict_contains (line_dict text) "phone" = true) := by
  by_cases hn : dict_contains (line_dict text) "name" = true
  · by_cases he : dict_contains (line_dict text) "email" = true
    · by_cases hp : dict_contains (line_dict text) "phone" = true
      · have hne : (line_dict text).isEmpty = false := by
          cases hd : line_dict text with
          | nil => exact absurd hn (by rw [hd]; simp [dict_contains])
          | cons a l => simp
        simp [parse_consultation_message, h, required_fields, hn, he, hp,
          hne]
      · simp [parse_consultation_message, h, required_fields, hn, he, hp]
    · simp [parse_consultation_message, h, required_fields, hn, he]
  · simp [parse_consultation_message, h, required_fields, hn]

/-- Witness for C1: the example input missing its Email line is refused, and
an input with no colon-bearing line at all is refused. -/
theorem parse_requires_name_email_phone_witness :
    starts_with_brace (pyStrip "Name: A\nPhone: 123") = false ∧
    parse_consultation_message (fun _ => none) "Name: A\nPhone: 123"
      = none := by
  refine ⟨rfl, ?_⟩
  rw [parse_requires_name_email_phone (fun _ => none)
    "Name: A\nPhone: 123" rfl]
  intro hconj
  have : dict_contains (line_dict "Name: A\nPhone: 123") "email" = false :=
    rfl
  rw [this] at hconj
  exact Bool.false_ne_true hconj.2.1

/-- Claim C2: if the stripped text starts with a brace, parse returns exactly
the decoded JSON object's key/value pairs, with no key normalization, no
required-field validation and no colon-line parsing; and when decoding fails,
parse returns no result. -/
theorem parse_json_object_branch (jl : String → Option JVal) (text : String)
    (h : starts_with_brace (pyStrip text) = true) :
    (∀ fields, jl text = some (JVal.obj fields) →
        parse_consultation_message jl text = some fields) ∧
    (jl text = none → parse_consultation_message jl text = none) := by
  constructor
  · intro fields hj
    simp [parse_consultation_message, h, hj]
  · intro hj
    simp [parse_consultation_message, h, hj]

/-- Witness for C2 at a concrete JSON object text and decode oracle. -/
theorem parse_json_object_branch_witness :
    starts_with_brace (pyStrip " \x7b\"x\": \"1\"\x7d") = true ∧
    parse_consultation_message
        (fun _ => some (JVal.obj [("x", JVal.str "1")]))
        " \x7b\"x\": \"1\"\x7d"
      = some [("x", JVal.str "1")] :=
  ⟨rfl,
   (parse_json_object_branch
     (fun _ => some (JVal.obj [("x", JVal.str "1")]))
     " \x7b\"x\": \"1\"\x7d" rfl).1 [("x", JVal.str "1")] rfl⟩

/-- Claim C9: spec-modelled first protocol generation: on a line-oriented
(non-JSON) input from which at least one pair was parsed, parse succeeds with
the accumulated dict, with no name/email/phone requirement. -/
theorem parse_gen1_succeeds_on_any_pair (jl : String → Option JVal)
    (text : String) (h : starts_with_brace (pyStrip text) = false)
    (hne : line_dict text ≠ []) :
    parse_consultation_message_gen1 jl text = some (line_dict text) := by
  have hempty : (line_dict text).isEmpty = false := by
    cases hd : line_dict text with
    | nil => exact absurd hd hne
    | cons a l => simp
  simp [parse_consultation_message_gen1, h, hempty]

/-- Witness for C9: a single Message pair (no name, email or phone) is
accepted by the first-generation parse. -/
theorem parse_gen1_succeeds_on_any_pair_witness :
    starts_with_brace (pyStrip "Message: hi") = false ∧
    line_dict "Message: hi" ≠ [] ∧
    parse_consultation_message_gen1 (fun _ => none) "Message: hi"
      = some (line_dict "Message: hi") := by
  have hne : line_dict "Message: hi" ≠ [] := by
    rw [show line_dict "Message: hi" = [("message", JVal.str "hi")] from rfl]
    simp
  exact ⟨rfl, hne,
    parse_gen1_succeeds_on_any_pair (fun _ => none) "Message: hi" rfl hne⟩

/-- Every member of `dictInsert d k v` is a member of `d` or the pair
`(k, v)` itself. -/
theorem mem_dictInsert (d : List (String × JVal)) (k : String) (v : JVal)
    (p : String × JVal) (hp : p ∈ dictInsert d k v) :
    p ∈ d ∨ p = (k, v) := by
  unfold dictInsert at hp
  by_cases h : d.any (fun q => q.1 = k)
  · rw [if_pos h] at hp
    rcases List.mem_map.mp hp with ⟨q, hq, hfq⟩
    by_cases h1 : q.1 = k
    · right; rw [← hfq, if_pos h1]
    · left; rw [← hfq, if_neg h1]; exact hq
  · rw [if_neg h] at hp
    rcases List.mem_append.mp hp with h1 | h1
    · exact Or.inl h1
    · right; simpa using h1

/-- Every member of `process_line d l` is a member of `d` or the kept pair
of the line `l`. -/
theorem mem_process_line (d : List (String × JVal)) (l : String)
    (p : String × JVal) (hp : p ∈ process_line d l) :
    p ∈ d ∨ kept_pair l p := by
  simp only [process_line] at hp
  by_cases hc : contains_colon (pyStrip l) = true
  · rw [if_pos hc] at hp
    by_cases hv : pyStrip (split_first_colon (pyStrip l)).2 = ""
    · rw [if_pos hv] at hp
      exact Or.inl hp
    · rw [if_neg hv] at hp
      rcases mem_dictInsert _ _ _ _ hp with h | h
      · exact Or.inl h
      · right
        exact ⟨hc, hv, by rw [h], by rw [h]⟩
  · rw [if_neg hc] at hp
    exact Or.inl hp

/-- Every member of the dict accumulated by the parsing loop is a member of
the starting dict or the kept pair of one of the lines. -/
theorem mem_parse_pairs (lines : List String) :
    ∀ d p, p ∈ parse_pairs lines d →
      p ∈ d ∨ ∃ l ∈ lines, kept_pair l p := by
  induction lines with
  | nil =>
    intro d p hp
    exact Or.inl hp
  | cons l ls ih =>
    intro d p hp
    have hp2 : p ∈ parse_pairs ls (process_line d l) := hp
    rcases ih (process_line d l) p hp2 with hmem | ⟨l2, hl2, hk⟩
    · rcases mem_process_line d l p hmem with h1 | h2
      · exact Or.inl h1
      · exact Or.inr ⟨l, List.mem_cons_self l ls, h2⟩
    · exact Or.inr ⟨l2, List.mem_cons_of_mem l hl2, hk⟩

/-- Claim C7: every pair kept by the line-oriented path comes from some line
of the input, carries the trimmed, lowercased key mapped through the synonym
table (an unknown key is retained, spaces replaced by underscores, rather
than dropped), and has a nonempty trimmed value (empty-valued pairs are
discarded). -/
theorem line_dict_pairs_normalized (text : String) (p : String × JVal)
    (hp : p ∈ line_dict text) :
    ∃ l ∈ split_lines (pyStrip text), kept_pair l p := by
  have h := mem_parse_pairs
    ((split_lines (pyStrip text)).drop
      (start_index (split_lines (pyStrip text)))) [] p hp
  rcases h with h0 | ⟨l, hl, hk⟩
  · cases h0
  · exact ⟨l, List.drop_subset _ _ hl, hk⟩

/-- Witness for C7: an unknown key `Insurance` with value `Yes` is retained
as `insurance`, and the witnessing pair satisfies the normalization shape. -/
theorem line_dict_pairs_normalized_witness :
    ("insurance", JVal.str "Yes")
      ∈ line_dict "Insurance: Yes\nConsultation Type: Implant" ∧
    ∃ l ∈ split_lines (pyStrip "Insurance: Yes\nConsultation Type: Implant"),
      kept_pair l ("insurance", JVal.str "Yes") := by
  have hm : ("insurance", JVal.str "Yes")
      ∈ line_dict "Insurance: Yes\nConsultation Type: Implant" := by
    rw [show line_dict "Insurance: Yes\nConsultation Type: Implant"
      = [("insurance", JVal.str "Yes"),
         ("consultation_type", JVal.str "Implant")] from rfl]
    exact List.mem_cons_self _ _
  exact ⟨hm, line_dict_pairs_normalized _ _ hm⟩

/-- A character list avoiding the colon, followed by a colon, splits there. -/
theorem break_colon_append (a b : List Char) (h : ':' ∉ a) :
    break_colon (a ++ ':' :: b) = (a, b) := by
  induction a with
  | nil => simp [break_colon]
  | cons c cs ih =>
    rw [List.mem_cons, not_or] at h
    obtain ⟨h1, h2⟩ := h
    have hc : ¬(c = ':') := fun hcc => h1 hcc.symm
    simp [break_colon, hc, ih h2]

/-- A character list with a colon in it contains a colon. -/
theorem contains_colon_append (a b : List Char) :
    (a ++ ':' :: b).contains ':' = true := by
  simp

/-- Splitting behaviour of `split_first_colon` and `contains_colon` on a
string decomposed at its first colon. -/
theorem string_split_decomp (k rest : String) (hk : ':' ∉ k.data) :
    split_first_colon (k ++ ":" ++ rest) = (k, rest) ∧
    contains_colon (k ++ ":" ++ rest) = true := by
  have hdata : (k ++ ":" ++ rest).data = k.data ++ ':' :: rest.data := by
    simp [String.data_append]
  constructor
  · unfold split_first_colon
    rw [hdata, break_colon_append k.data rest.data hk]
  · unfold contains_colon
    rw [hdata]
    exact contains_colon_append _ _

/-- Claim C8: a line containing one or more colons is split only on the
first colon: the key part is everything before the first colon, and every
further colon stays inside the value stored by the parsing loop. -/
theorem split_only_on_first_colon (d : List (String × JVal))
    (l k rest : String) (hl : pyStrip l = k ++ ":" ++ rest)
    (hk : ':' ∉ k.data) (hv : pyStrip rest ≠ "") :
    split_first_colon (pyStrip l) = (k, rest) ∧
    process_line d l
      = dictInsert d (mapped_key (pyLower (pyStrip k)))
          (JVal.str (pyStrip rest)) := by
  obtain ⟨hsplit, hcontains⟩ := string_split_decomp k rest hk
  constructor
  · rw [hl]
    exact hsplit
  · simp only [process_line, hl, hcontains, hsplit, if_true]
    rw [if_neg hv]

/-- Witness for C8: the value of `Message: see you at 10:30` keeps its
internal colon. -/
theorem split_only_on_first_colon_witness :
    pyStrip "Message: see you at 10:30"
      = "Message" ++ ":" ++ " see you at 10:30" ∧
    (':' ∉ "Message".data) ∧
    pyStrip " see you at 10:30" ≠ "" ∧
    split_first_colon (pyStrip "Message: see you at 10:30")
      = ("Message", " see you at 10:30") ∧
    process_line [] "Message: see you at 10:30"
      = dictInsert [] (mapped_key (pyLower (pyStrip "Message")))
          (JVal.str (pyStrip " see you at 10:30")) :=
  ⟨by decide, by decide, by decide,
   split_only_on_first_colon [] "Message: see you at 10:30" "Message"
     " see you at 10:30" (by decide) (by decide) (by decide)⟩
